import Mathlib

/-!
# Verification of the vinyl-ripper segmentation & quality-analysis engine

Shallow embedding of `src/processing/services.py` (class `AudioProcessor`),
`src/processing/models.py` (`Track`, `AudioQuality`), `src/core/config.py`
(`SilenceDetection`) and `src/core/exceptions.py`.

Modelling conventions:
* Python ints become `Nat`/`Int`; Python floats become `ℚ`.  The real-valued
  functions `log10` and `sqrt` used only to produce dB figures are passed as
  abstract parameters, since no verified property depends on their values
  (the zero tests in the source, `max_abs == 0` and `rms == 0`, are expressed
  on the radicand: for the real square root, `sqrt m = 0 ↔ m = 0`).
* A multi-channel numpy buffer of shape `(frames, channels)` is a
  `List (List ℚ)` (outer list = frames); a 1-D mono buffer is the same with
  singleton frames.  `len(audio_data)` is the outer length, `flatten` is
  `List.flatten` — both agree with numpy for these shapes.
* Python exceptions become `Except`; the third-party calls
  (`pydub.silence.split_on_silence`, `pyln.Meter.integrated_loudness`) are
  abstracted as inputs: the segment list (as the list of segment lengths in
  ms) and an `Option ℚ` loudness measurement (`none` = the call raised).
* `round(x, n)` is Python's float rounding: round-half-to-even.
-/

namespace VinylRipper

/-! ## Data model (`src/processing/models.py`) -/

/-- `Track` dataclass: `number`, `duration_ms`, `start_time`, `end_time`
(seconds, as `ℚ`), `side` (default `"A"`). -/
structure Track where
  number : Nat
  duration_ms : Nat
  start_time : ℚ
  end_time : ℚ
  side : String := "A"
  deriving DecidableEq

/-- A dB level: Python `float` that may be `-inf` (the zero-signal sentinel in
`analyze_quality`). -/
inductive DbLevel where
  | neginf : DbLevel
  | val : ℚ → DbLevel
  deriving DecidableEq

/-- `AudioQuality` dataclass. -/
structure AudioQuality where
  peak_db : DbLevel
  rms_db : DbLevel
  dynamic_range : ℚ
  loudness_lufs : ℚ
  clipping_percent : ℚ
  sample_rate : Nat
  duration_seconds : ℚ
  deriving DecidableEq

/-! ## Exceptions (`src/core/exceptions.py`) -/

/-- `ProcessingError(message, file_path=None, details=None)`. -/
structure ProcessingError where
  message : String
  file_path : Option String := none
  details : Option String := none
  deriving DecidableEq

/-- `QualityAnalysisError(message, file_path=None, analysis_type=None,
details=None)`. -/
structure QualityAnalysisError where
  message : String
  file_path : Option String := none
  analysis_type : Option String := none
  details : Option String := none
  deriving DecidableEq

/-- `VinylRipperError.__str__`: `"{message}: {details}"` when `details` is
truthy, else `message` (an empty string is falsy in Python). -/
def vinylErrorStr (message : String) (details : Option String) : String :=
  match details with
  | some d => if d = "" then message else message ++ ": " ++ d
  | none => message

/-! ## Configuration (`src/core/config.py`, class `SilenceDetection`) -/

def DEFAULT_SILENCE_THRESH_DB : Int := -50
def DEFAULT_MIN_SILENCE_LEN_MS : Nat := 2000
def DEFAULT_MIN_TRACK_LEN_MS : Nat := 10000
def DEFAULT_KEEP_SILENCE_MS : Nat := 500

/-! ## Python `round` (round-half-to-even) -/

/-- Round to the nearest integer, ties to even (Python/IEEE semantics). -/
def roundHalfEven (x : ℚ) : ℤ :=
  if x - ⌊x⌋ < 1/2 then ⌊x⌋
  else if 1/2 < x - ⌊x⌋ then ⌊x⌋ + 1
  else if ⌊x⌋ % 2 = 0 then ⌊x⌋ else ⌊x⌋ + 1

/-- Python `round(x, d)` on a rational. -/
def pyRound (d : Nat) (x : ℚ) : ℚ :=
  (roundHalfEven (x * 10 ^ d) : ℚ) / 10 ^ d

/-- `round` applied to a possibly `-inf` float: `round(-inf, d) = -inf`. -/
def DbLevel.roundDb (d : Nat) : DbLevel → DbLevel
  | .neginf => .neginf
  | .val q => .val (pyRound d q)

/-! ## `AudioProcessor.analyze_quality` (services.py lines 19–77) -/

/-- `np.max(np.abs(audio_data))` over the flattened buffer (all entries of the
mapped list are ≥ 0, so folding `max` from 0 is the numpy maximum on a
non-empty buffer). -/
def maxAbs (flat : List ℚ) : ℚ :=
  (flat.map (fun x => |x|)).foldr max 0

/-- Sum of squares of all samples (numerator of `np.mean(audio_data**2)`). -/
def sumSquares (flat : List ℚ) : ℚ :=
  (flat.map (fun x => x * x)).sum

/-- `np.sum(np.abs(audio_data) >= 0.99)`: number of clipped samples. -/
def countClipped (flat : List ℚ) : Nat :=
  (flat.filter (fun x => (99 : ℚ)/100 ≤ |x|)).length

/-- The `AudioQuality` record built by the non-failing path of
`analyze_quality` (services.py lines 32–72): the body of the computation with
the local variables of the source as `let`s. -/
def analyzeRecord (audio_data : List (List ℚ)) (sample_rate : Nat)
    (log10 : ℚ → ℚ) (sqrt : ℚ → ℚ) (loudnessMeas : Option ℚ) : AudioQuality :=
  let flat := audio_data.flatten
  let m := maxAbs flat
  let peak_level : DbLevel :=
    if m = 0 then .neginf else .val (20 * log10 m)
  let msq := sumSquares flat / (flat.length : ℚ)
  let rms_level : DbLevel :=
    if msq = 0 then .neginf else .val (20 * log10 (sqrt msq))
  let dynamic_range : ℚ :=
    match peak_level, rms_level with
    | .val p, .val r => p - r
    | _, _ => 0
  let loudness : ℚ := loudnessMeas.getD (-23)
  let clipping_percentage : ℚ :=
    ((countClipped flat : ℚ) / (flat.length : ℚ)) * 100
  { peak_db := peak_level.roundDb 2
    rms_db := rms_level.roundDb 2
    dynamic_range := pyRound 2 dynamic_range
    loudness_lufs := pyRound 2 loudness
    clipping_percent := pyRound 4 clipping_percentage
    sample_rate := sample_rate
    duration_seconds := (audio_data.length : ℚ) / (sample_rate : ℚ) }

/-- `AudioProcessor.analyze_quality(audio_data, sample_rate)`.

`log10` and `sqrt` are the real functions abstracted as parameters;
`loudnessMeas` is the result of `pyln.Meter(sample_rate).integrated_loudness`
(`none` when that call raises, which triggers the `-23.0` LUFS fallback).
The three `.error` branches are the Python exceptions that escape the inner
code and are re-wrapped by the outer `except` as
`QualityAnalysisError("Failed to analyze audio quality", details=str(e))`:
the empty-buffer `QualityAnalysisError`, numpy's empty-reduction `ValueError`
(a zero-channel 2-D buffer), and the `ZeroDivisionError` from
`len(audio_data) / sample_rate` when `sample_rate = 0`. -/
def analyze_quality (audio_data : List (List ℚ)) (sample_rate : Nat)
    (log10 : ℚ → ℚ) (sqrt : ℚ → ℚ) (loudnessMeas : Option ℚ) :
    Except QualityAnalysisError AudioQuality :=
  if audio_data.length = 0 then
    .error ⟨"Failed to analyze audio quality", none, none,
            some (vinylErrorStr "Audio data is empty" none)⟩
  else if audio_data.flatten.length = 0 then
    .error ⟨"Failed to analyze audio quality", none, none,
            some "zero-size array to reduction operation maximum which has no identity"⟩
  else if sample_rate = 0 then
    .error ⟨"Failed to analyze audio quality", none, none,
            some "division by zero"⟩
  else
    .ok (analyzeRecord audio_data sample_rate log10 sqrt loudnessMeas)

/-! ## `AudioProcessor.detect_tracks` (services.py lines 91–139)

The `pydub` decoding and `split_on_silence` call are abstracted: the function
receives the audio length in ms and the list of segment lengths in ms. -/

/-- The `for i, segment in enumerate(segments)` loop of `detect_tracks`:
`i` is the enumeration index, `current_time` the running cursor in ms. -/
def detectTracksLoop (min_track_len : Nat) :
    List Nat → Nat → Nat → List Track
  | [], _, _ => []
  | seg :: rest, i, current_time =>
    (if min_track_len ≤ seg then
      [{ number := i + 1
         duration_ms := seg
         start_time := (current_time : ℚ) / 1000
         end_time := ((current_time + seg : Nat) : ℚ) / 1000
         side := "A" }]
     else []) ++ detectTracksLoop min_track_len rest (i + 1) (current_time + seg)

/-- `detect_tracks` from the segment list on (after the `split_on_silence`
call): `if not segments: return []`, then the filtering loop. -/
def detect_tracks_segments (segments : List Nat) (min_track_len : Nat) :
    List Track :=
  if segments = [] then [] else detectTracksLoop min_track_len segments 0 0

/-- Full `detect_tracks`, with the empty-file check and the outer `except`
re-wrap (`ProcessingError("Failed to detect tracks", file_path, str(e))`). -/
def detect_tracks (path : String) (audio_len_ms : Nat)
    (segments : List Nat) (min_track_len : Nat) :
    Except ProcessingError (List Track) :=
  if audio_len_ms = 0 then
    .error ⟨"Failed to detect tracks", some path,
            some (vinylErrorStr "Audio file is empty" none)⟩
  else
    .ok (detect_tracks_segments segments min_track_len)

/-! ## `AudioProcessor.detect_vinyl_tracks` (services.py lines 141–213) -/

/-- The side-advance chain of lines 184–189: `A→B`, `B→C`, `C→D`, anything
else (in particular `D`) unchanged. -/
def advanceSide (s : String) : String :=
  if s = "A" then "B"
  else if s = "B" then "C"
  else if s = "C" then "D"
  else s

/-- Position of a side letter in the fixed order `A, B, C, D` (spec §3);
used to state monotonicity of the emitted side sequence. -/
def sideOrd (s : String) : Nat :=
  if s = "A" then 0
  else if s = "B" then 1
  else if s = "C" then 2
  else 3

/-- The `for i, segment in enumerate(segments)` loop of `detect_vinyl_tracks`.
`processed` is the already-scanned prefix `segments[:i]` (so `i > 0` is
`processed ≠ []` and `sum(len(s) for s in segments[:i])` is `processed.sum`);
`current_time`, `current_side`, `track_number_in_side` and
`global_track_number` are the loop-carried variables of the source. -/
def detectVinylLoop :
    List Nat → List Nat → Nat → String → Nat → Nat → List Track
  | [], _, _, _, _, _ => []
  | seg :: rest, processed, current_time, current_side,
      track_number_in_side, global_track_number =>
    if DEFAULT_MIN_TRACK_LEN_MS ≤ seg then
      let gap_before : ℤ :=
        if processed ≠ [] then (current_time : ℤ) - (processed.sum : ℤ) else 0
      let isBreak : Bool :=
        decide (10000 < gap_before) && decide (1 < global_track_number)
      let new_side := if isBreak then advanceSide current_side else current_side
      let new_tns := if isBreak then 1 else track_number_in_side
      { number := global_track_number
        duration_ms := seg
        start_time := (current_time : ℚ) / 1000
        end_time := ((current_time + seg : Nat) : ℚ) / 1000
        side := new_side } ::
        detectVinylLoop rest (processed ++ [seg]) (current_time + seg)
          new_side (new_tns + 1) (global_track_number + 1)
    else
      detectVinylLoop rest (processed ++ [seg]) (current_time + seg)
        current_side track_number_in_side global_track_number

/-- `detect_vinyl_tracks` from the segment list on: `if not segments:
return []`, then the classification loop with `current_time = 0`,
`current_side = "A"`, `track_number_in_side = 1`, `global_track_number = 1`. -/
def detect_vinyl_tracks_segments (segments : List Nat) : List Track :=
  if segments = [] then []
  else detectVinylLoop segments [] 0 "A" 1 1

/-- Full `detect_vinyl_tracks`, with the empty-file check and the outer
`except` re-wrap. -/
def detect_vinyl_tracks (path : String) (audio_len_ms : Nat)
    (segments : List Nat) : Except ProcessingError (List Track) :=
  if audio_len_ms = 0 then
    .error ⟨"Failed to detect vinyl tracks", some path,
            some (vinylErrorStr "Audio file is empty" none)⟩
  else
    .ok (detect_vinyl_tracks_segments segments)

/-! ## SilenceSegmenter (spec §4.1)

`detect_tracks` and `detect_vinyl_tracks` obtain their segments from the
third-party `pydub.silence.split_on_silence`, which is not part of this
repository's sources; the spec describes it as the SilenceSegmenter
component.  It is modelled here from the spec over a run-length encoding of
the waveform's per-millisecond silent/non-silent classification (a run is a
maximal span of frames on one side of `silence_threshold_db`, so the
threshold has already been applied). -/

/-- A maximal run of consecutive milliseconds that are all silent or all
non-silent relative to the threshold. -/
structure Run where
  silent : Bool
  len : Nat
  deriving DecidableEq

/-- Total length, in ms, of a run-encoded buffer. -/
def totalLen (runs : List Run) : Nat :=
  (runs.map Run.len).sum

/-- Modelled from the spec: absolute `(silent, start_ms, end_ms)` intervals
of the runs, scanning from position `pos`. -/
def runIntervals : List Run → Nat → List (Bool × Nat × Nat)
  | [], _ => []
  | r :: rs, pos => (r.silent, pos, pos + r.len) :: runIntervals rs (pos + r.len)

/-- Modelled from the spec: «a silence run qualifies as a gap only if its
length ≥ `min_silence_len_ms`» — the qualifying gaps, in scan order. -/
def qualifyingGaps (runs : List Run) (min_silence_len : Nat) :
    List (Nat × Nat) :=
  (runIntervals runs 0).filterMap fun t =>
    if t.1 ∧ min_silence_len ≤ t.2.2 - t.2.1 then some t.2 else none

/-- Modelled from the spec: «between two qualifying gaps (or file start/end
and the nearest gap), the bounded span … becomes one Segment» — the raw
(unextended) spans, dropping empty ones (a Segment needs
`start_ms < end_ms`). -/
def rawSpans : Nat → List (Nat × Nat) → Nat → List (Nat × Nat)
  | start, [], total => if start < total then [(start, total)] else []
  | start, g :: gs, total =>
    (if start < g.1 then [(start, g.1)] else []) ++ rawSpans g.2 gs total

/-- Modelled from the spec: extend each span «by up to `keep_silence_ms` on
each side (clamped to buffer bounds …)»; `Nat` subtraction clamps at 0. -/
def extendSpans (spans : List (Nat × Nat)) (keep total : Nat) :
    List (Nat × Nat) :=
  spans.map fun p => (p.1 - keep, min total (p.2 + keep))

/-- Modelled from the spec: «… and never overlapping an adjacent segment» —
when two extended spans overlap, both are cut at the midpoint (`p` is the
current head span, the list the spans after it). -/
def fixOverlapsGo (p : Nat × Nat) : List (Nat × Nat) → List (Nat × Nat)
  | [] => [p]
  | q :: rest =>
    if q.1 < p.2 then
      (p.1, (p.2 + q.1) / 2) :: fixOverlapsGo ((p.2 + q.1) / 2, q.2) rest
    else
      p :: fixOverlapsGo q rest

/-- Modelled from the spec: overlap fixing over the whole span list. -/
def fixOverlaps : List (Nat × Nat) → List (Nat × Nat)
  | [] => []
  | p :: rest => fixOverlapsGo p rest

/-- Modelled from the spec: the SilenceSegmenter contract
`segment(waveform, …) -> ordered list of Segment`, on the run encoding. -/
def segmentRuns (runs : List Run) (min_silence_len keep : Nat) :
    List (Nat × Nat) :=
  fixOverlaps
    (extendSpans (rawSpans 0 (qualifyingGaps runs min_silence_len) (totalLen runs))
      keep (totalLen runs))

/-- The spec §8 scenario buffer, run-encoded: 180 s total, two 80 s tone
bursts separated by a 12 s true-silence gap, with the remaining 8 s as 4 s of
lead-in and lead-out silence. -/
def scenarioRuns : List Run :=
  [⟨true, 4000⟩, ⟨false, 80000⟩, ⟨true, 12000⟩, ⟨false, 80000⟩, ⟨true, 4000⟩]

/-! ## Helper lemmas -/

theorem maxAbs_cons (a : ℚ) (t : List ℚ) : maxAbs (a :: t) = max |a| (maxAbs t) :=
  rfl

theorem sumSquares_cons (a : ℚ) (t : List ℚ) :
    sumSquares (a :: t) = a * a + sumSquares t :=
  rfl

theorem maxAbs_zero (l : List ℚ) (h : ∀ x ∈ l, x = 0) : maxAbs l = 0 := by
  induction l with
  | nil => rfl
  | cons a t ih =>
    have ha : a = 0 := h a (by simp)
    have ht := ih (fun x hx => h x (by simp [hx]))
    rw [maxAbs_cons, ha, ht]
    simp

theorem sumSquares_zero (l : List ℚ) (h : ∀ x ∈ l, x = 0) : sumSquares l = 0 := by
  induction l with
  | nil => rfl
  | cons a t ih =>
    have ha : a = 0 := h a (by simp)
    have ht := ih (fun x hx => h x (by simp [hx]))
    rw [sumSquares_cons, ha, ht]
    ring

theorem countClipped_zero (l : List ℚ) (h : ∀ x ∈ l, x = 0) :
    countClipped l = 0 := by
  simp only [countClipped, List.length_eq_zero, List.filter_eq_nil]
  intro a ha
  rw [h a ha]
  norm_num

theorem countClipped_le (l : List ℚ) : countClipped l ≤ l.length :=
  List.length_filter_le _ _

theorem roundHalfEven_zero : roundHalfEven 0 = 0 := by
  unfold roundHalfEven
  norm_num

theorem pyRound_zero (d : Nat) : pyRound d 0 = 0 := by
  unfold pyRound
  rw [zero_mul, roundHalfEven_zero]
  simp

theorem roundHalfEven_nonneg (x : ℚ) (h : 0 ≤ x) : 0 ≤ roundHalfEven x := by
  have hf : 0 ≤ ⌊x⌋ := Int.floor_nonneg.2 h
  unfold roundHalfEven
  split_ifs <;> omega

theorem roundHalfEven_le (x : ℚ) (M : ℤ) (h : x ≤ M) : roundHalfEven x ≤ M := by
  have hfl : (⌊x⌋ : ℚ) ≤ x := Int.floor_le x
  have hflM : ⌊x⌋ ≤ M := by exact_mod_cast hfl.trans h
  unfold roundHalfEven
  split_ifs with h1 h2 h3
  · exact hflM
  · have hlt : (⌊x⌋ : ℚ) < x := by linarith
    have : ⌊x⌋ < M := by exact_mod_cast hlt.trans_le h
    omega
  · exact hflM
  · have hlt : (⌊x⌋ : ℚ) < x := by linarith
    have : ⌊x⌋ < M := by exact_mod_cast hlt.trans_le h
    omega

theorem pyRound_nonneg (d : Nat) (x : ℚ) (h : 0 ≤ x) : 0 ≤ pyRound d x := by
  unfold pyRound
  apply div_nonneg
  · exact_mod_cast roundHalfEven_nonneg _ (by positivity)
  · positivity

theorem pyRound_le_hundred (d : Nat) (x : ℚ) (h : x ≤ 100) :
    pyRound d x ≤ 100 := by
  unfold pyRound
  rw [div_le_iff₀ (by positivity)]
  have hb : x * 10 ^ d ≤ ((100 * 10 ^ d : ℤ) : ℚ) := by
    push_cast
    have : (0 : ℚ) ≤ 10 ^ d := by positivity
    nlinarith
  exact_mod_cast roundHalfEven_le (x * 10 ^ d) (100 * 10 ^ d) hb

theorem analyze_quality_ok (audio_data : List (List ℚ)) (sample_rate : Nat)
    (log10 sqrt : ℚ → ℚ) (loudnessMeas : Option ℚ)
    (h1 : audio_data ≠ []) (h2 : audio_data.flatten ≠ [])
    (h3 : sample_rate ≠ 0) :
    analyze_quality audio_data sample_rate log10 sqrt loudnessMeas =
      .ok (analyzeRecord audio_data sample_rate log10 sqrt loudnessMeas) := by
  have h1' : ¬audio_data.length = 0 := fun hh => h1 (List.length_eq_zero.1 hh)
  have h2' : ¬audio_data.flatten.length = 0 := fun hh =>
    h2 (List.length_eq_zero.1 hh)
  unfold analyze_quality
  rw [if_neg h1', if_neg h2', if_neg h3]

/-! ## C5 — pure-silence buffer -/

/-- C5: for every non-empty all-zero (pure-silence) sample buffer,
`analyze_quality` returns an `AudioQuality` record with
`clipping_percent = 0`, `peak_db` equal to the negative-infinity sentinel
(no exception raised for the zero maximum), and `dynamic_range_db = 0`. -/
theorem c5_pure_silence (audio_data : List (List ℚ)) (sample_rate : Nat)
    (log10 sqrt : ℚ → ℚ) (loudnessMeas : Option ℚ)
    (hne : audio_data ≠ []) (hch : audio_data.flatten ≠ [])
    (hz : ∀ fr ∈ audio_data, ∀ x ∈ fr, x = 0) (hsr : sample_rate ≠ 0) :
    ∃ q, analyze_quality audio_data sample_rate log10 sqrt loudnessMeas = .ok q ∧
      q.clipping_percent = 0 ∧ q.peak_db = DbLevel.neginf ∧
      q.dynamic_range = 0 := by
  have hz' : ∀ x ∈ audio_data.flatten, x = 0 := by
    intro x hx
    rcases List.mem_flatten.1 hx with ⟨fr, hfr, hxfr⟩
    exact hz fr hfr x hxfr
  have hm : maxAbs audio_data.flatten = 0 := maxAbs_zero _ hz'
  have hss : sumSquares audio_data.flatten = 0 := sumSquares_zero _ hz'
  have hcc : countClipped audio_data.flatten = 0 := countClipped_zero _ hz'
  refine ⟨_, analyze_quality_ok _ _ _ _ _ hne hch hsr, ?_, ?_, ?_⟩
  · simp [analyzeRecord, hcc, pyRound_zero]
  · simp [analyzeRecord, hm, DbLevel.roundDb]
  · simp [analyzeRecord, hm, hss, pyRound_zero]

/-- Witness for C5 at a concrete two-frame zero buffer. -/
theorem c5_witness :
    ∃ q, analyze_quality [[0], [0]] 44100 (fun _ => 0) (fun _ => 0) none =
        .ok q ∧
      q.clipping_percent = 0 ∧ q.peak_db = DbLevel.neginf ∧
      q.dynamic_range = 0 :=
  c5_pure_silence [[0], [0]] 44100 (fun _ => 0) (fun _ => 0) none
    (by decide) (by decide) (by decide) (by decide)

/-! ## C6 — loudness-measurement fallback -/

/-- C6: when the integrated-loudness measurement cannot be computed (the
third-party call raises, modelled as `loudnessMeas = none`), `analyze_quality`
does not fail: it substitutes `loudness_lufs = -23.0` and still returns a
complete `AudioQuality` record whose every other field equals the one computed
when the measurement succeeds. -/
theorem c6_loudness_fallback (audio_data : List (List ℚ)) (sample_rate : Nat)
    (log10 sqrt : ℚ → ℚ)
    (hne : audio_data ≠ []) (hch : audio_data.flatten ≠ [])
    (hsr : sample_rate ≠ 0) :
    ∃ q, analyze_quality audio_data sample_rate log10 sqrt none = .ok q ∧
      q.loudness_lufs = -23 ∧
      ∀ (l : ℚ) (q' : AudioQuality),
        analyze_quality audio_data sample_rate log10 sqrt (some l) = .ok q' →
          q.peak_db = q'.peak_db ∧ q.rms_db = q'.rms_db ∧
          q.dynamic_range = q'.dynamic_range ∧
          q.clipping_percent = q'.clipping_percent ∧
          q.sample_rate = q'.sample_rate ∧
          q.duration_seconds = q'.duration_seconds := by
  refine ⟨_, analyze_quality_ok _ _ _ _ _ hne hch hsr, ?_, ?_⟩
  · show pyRound 2 (Option.getD none (-23)) = -23
    norm_num [pyRound, roundHalfEven]
  · intro l q' h
    rw [analyze_quality_ok _ _ _ _ _ hne hch hsr] at h
    injection h with h
    subst h
    exact ⟨rfl, rfl, rfl, rfl, rfl, rfl⟩

/-- Witness for C6 at a concrete one-sample buffer. -/
theorem c6_witness :
    ∃ q, analyze_quality [[1]] 44100 (fun _ => 0) (fun _ => 0) none = .ok q ∧
      q.loudness_lufs = -23 ∧
      ∀ (l : ℚ) (q' : AudioQuality),
        analyze_quality [[1]] 44100 (fun _ => 0) (fun _ => 0) (some l) =
            .ok q' →
          q.peak_db = q'.peak_db ∧ q.rms_db = q'.rms_db ∧
          q.dynamic_range = q'.dynamic_range ∧
          q.clipping_percent = q'.clipping_percent ∧
          q.sample_rate = q'.sample_rate ∧
          q.duration_seconds = q'.duration_seconds :=
  c6_loudness_fallback [[1]] 44100 (fun _ => 0) (fun _ => 0)
    (by decide) (by decide) (by decide)

/-! ## C7 — clipping percentage -/

/-- C7: for every non-empty sample buffer, `clipping_percent` equals 100
times the count of flattened samples whose absolute value is at least 0.99 of
full scale, divided by the total flattened sample count, rounded to 4 decimal
places, and so always lies in `[0, 100]`. -/
theorem c7_clipping_formula (audio_data : List (List ℚ)) (sample_rate : Nat)
    (log10 sqrt : ℚ → ℚ) (loudnessMeas : Option ℚ)
    (hne : audio_data ≠ []) (hch : audio_data.flatten ≠ [])
    (hsr : sample_rate ≠ 0) :
    ∃ q, analyze_quality audio_data sample_rate log10 sqrt loudnessMeas =
        .ok q ∧
      q.clipping_percent =
        pyRound 4 (100 * (countClipped audio_data.flatten : ℚ) /
          (audio_data.flatten.length : ℚ)) ∧
      0 ≤ q.clipping_percent ∧ q.clipping_percent ≤ 100 := by
  have hlen : 0 < (audio_data.flatten.length : ℚ) := by
    have := List.length_pos.2 hch
    exact_mod_cast this
  have hcle : (countClipped audio_data.flatten : ℚ) ≤
      (audio_data.flatten.length : ℚ) := by
    exact_mod_cast countClipped_le audio_data.flatten
  have hratio : (countClipped audio_data.flatten : ℚ) /
      (audio_data.flatten.length : ℚ) ≤ 1 := (div_le_one hlen).2 hcle
  refine ⟨_, analyze_quality_ok _ _ _ _ _ hne hch hsr, ?_, ?_, ?_⟩
  · show pyRound 4 _ = pyRound 4 _
    congr 1
    ring
  · apply pyRound_nonneg
    positivity
  · apply pyRound_le_hundred
    linarith

/-- Witness for C7 at a concrete buffer with one clipped sample out of two. -/
theorem c7_witness :
    ∃ q, analyze_quality [[1], [0]] 44100 (fun _ => 0) (fun _ => 0) none =
        .ok q ∧
      q.clipping_percent =
        pyRound 4 (100 * (countClipped ([[1], [0]] : List (List ℚ)).flatten : ℚ) /
          (([[1], [0]] : List (List ℚ)).flatten.length : ℚ)) ∧
      0 ≤ q.clipping_percent ∧ q.clipping_percent ≤ 100 :=
  c7_clipping_formula [[1], [0]] 44100 (fun _ => 0) (fun _ => 0) none
    (by decide) (by decide) (by decide)

/-! ## C10 — error totality of `analyze_quality` -/

/-- C10: `analyze_quality` either returns an `AudioQuality` record or fails
with a `QualityAnalysisError` whose message is the fixed re-wrap message and
whose details carry the original cause; in particular the empty-buffer error
is re-wrapped with `str(e) = "Audio data is empty"` as its details. -/
theorem c10_error_totality :
    (∀ (audio_data : List (List ℚ)) (sample_rate : Nat) (log10 sqrt : ℚ → ℚ)
        (loudnessMeas : Option ℚ),
      (∃ q, analyze_quality audio_data sample_rate log10 sqrt loudnessMeas =
          .ok q) ∨
      (∃ d, analyze_quality audio_data sample_rate log10 sqrt loudnessMeas =
          .error ⟨"Failed to analyze audio quality", none, none, some d⟩)) ∧
    (∀ (sample_rate : Nat) (log10 sqrt : ℚ → ℚ) (loudnessMeas : Option ℚ),
      analyze_quality [] sample_rate log10 sqrt loudnessMeas =
        .error ⟨"Failed to analyze audio quality", none, none,
                some "Audio data is empty"⟩) := by
  constructor
  · intro audio_data sample_rate log10 sqrt loudnessMeas
    unfold analyze_quality
    split_ifs
    · exact Or.inr ⟨_, rfl⟩
    · exact Or.inr ⟨_, rfl⟩
    · exact Or.inr ⟨_, rfl⟩
    · exact Or.inl ⟨_, rfl⟩
  · intro sample_rate log10 sqrt loudnessMeas
    rfl

/-! ## Characterization of the `detect_tracks` loop -/

/-- Every track emitted by the `detect_tracks` loop comes from a surviving
segment at some index `k` of the remaining list: its number is the
enumeration index plus one, its timestamps are the cumulative cursor
positions (counting discarded segments too) divided by 1000. -/
theorem detectTracksLoop_mem (min_track_len : Nat) :
    ∀ (rest : List Nat) (i current_time : Nat) (t : Track),
      t ∈ detectTracksLoop min_track_len rest i current_time →
      ∃ k, ∃ hk : k < rest.length,
        min_track_len ≤ rest.get ⟨k, hk⟩ ∧
        t.number = i + k + 1 ∧
        t.duration_ms = rest.get ⟨k, hk⟩ ∧
        t.start_time =
          ((current_time + (rest.take k).sum : Nat) : ℚ) / 1000 ∧
        t.end_time =
          ((current_time + (rest.take k).sum + rest.get ⟨k, hk⟩ : Nat) : ℚ) /
            1000 ∧
        t.side = "A" := by
  intro rest
  induction rest with
  | nil =>
    intro i ct t ht
    simp [detectTracksLoop] at ht
  | cons seg rest ih =>
    intro i ct t ht
    rw [detectTracksLoop] at ht
    rcases List.mem_append.1 ht with h | h
    · by_cases hseg : min_track_len ≤ seg
      · rw [if_pos hseg, List.mem_singleton] at h
        subst h
        exact ⟨0, Nat.succ_pos _, hseg, by simp, rfl, by simp, by simp, rfl⟩
      · rw [if_neg hseg] at h
        simp at h
    · rcases ih (i + 1) (ct + seg) t h with
        ⟨k, hk, hle, hnum, hdur, hstart, hend, hside⟩
      refine ⟨k + 1, Nat.succ_lt_succ hk, hle, ?_, hdur, ?_, ?_, hside⟩
      · rw [hnum]; omega
      · rw [hstart]
        have e : ct + seg + (rest.take k).sum =
            ct + ((seg :: rest).take (k + 1)).sum := by
          simp only [List.take_succ_cons, List.sum_cons]
          omega
        rw [e]
      · rw [hend]
        have e : ct + seg + (rest.take k).sum + rest.get ⟨k, hk⟩ =
            ct + ((seg :: rest).take (k + 1)).sum +
              (seg :: rest).get ⟨k + 1, Nat.succ_lt_succ hk⟩ := by
          simp only [List.take_succ_cons, List.sum_cons, List.get_cons_succ]
          omega
        rw [e]

/-- If every remaining segment is below the minimum track length, the
`detect_tracks` loop emits nothing. -/
theorem detectTracksLoop_all_short (min_track_len : Nat) :
    ∀ (rest : List Nat) (i current_time : Nat),
      (∀ s ∈ rest, s < min_track_len) →
      detectTracksLoop min_track_len rest i current_time = [] := by
  intro rest
  induction rest with
  | nil => intro i ct _; rfl
  | cons seg rest ih =>
    intro i ct h
    rw [detectTracksLoop]
    have hseg : ¬min_track_len ≤ seg := by
      have := h seg (by simp)
      omega
    rw [if_neg hseg, List.nil_append]
    exact ih (i + 1) (ct + seg) (fun s hs => h s (by simp [hs]))

/-! ## Characterization of the `detect_vinyl_tracks` loop

The loop invariant is `current_time = processed.sum`: the cursor only ever
accumulates the lengths of scanned segments (line 204), which is exactly
`sum(len(s) for s in segments[:i])` (line 179).  Hence `gap_before` is
always 0 and the side-change branch (lines 182–190) never fires. -/

/-- `gap_before` as computed by line 179 under the loop invariant: always 0. -/
theorem detectVinylLoop_gap (processed : List Nat) :
    (if processed ≠ [] then (processed.sum : ℤ) - (processed.sum : ℤ) else 0) =
      0 := by
  split_ifs <;> simp

/-- One loop step on a surviving segment, under the invariant: the track is
emitted with the *unchanged* side and the side carried forward is unchanged. -/
theorem detectVinylLoop_cons_emit (seg : Nat) (rest processed : List Nat)
    (current_time : Nat) (current_side : String) (tns gnum : Nat)
    (hct : current_time = processed.sum)
    (hseg : DEFAULT_MIN_TRACK_LEN_MS ≤ seg) :
    detectVinylLoop (seg :: rest) processed current_time current_side tns
        gnum =
      { number := gnum
        duration_ms := seg
        start_time := (current_time : ℚ) / 1000
        end_time := ((current_time + seg : Nat) : ℚ) / 1000
        side := current_side } ::
      detectVinylLoop rest (processed ++ [seg]) (current_time + seg)
        current_side (tns + 1) (gnum + 1) := by
  subst hct
  rw [detectVinylLoop, if_pos hseg]
  simp only [detectVinylLoop_gap]
  norm_num

/-- One loop step on a discarded segment: nothing is emitted, but the cursor
advances by the segment's length. -/
theorem detectVinylLoop_cons_skip (seg : Nat) (rest processed : List Nat)
    (current_time : Nat) (current_side : String) (tns gnum : Nat)
    (hseg : ¬DEFAULT_MIN_TRACK_LEN_MS ≤ seg) :
    detectVinylLoop (seg :: rest) processed current_time current_side tns
        gnum =
      detectVinylLoop rest (processed ++ [seg]) (current_time + seg)
        current_side tns gnum := by
  rw [detectVinylLoop, if_neg hseg]

/-- Under the loop invariant, emitted track numbers are consecutive from the
running global counter. -/
theorem detectVinylLoop_numbers :
    ∀ (rest processed : List Nat) (current_time : Nat) (current_side : String)
      (tns gnum : Nat), current_time = processed.sum →
      (detectVinylLoop rest processed current_time current_side tns
          gnum).map Track.number =
        List.range' gnum
          (detectVinylLoop rest processed current_time current_side tns
            gnum).length := by
  intro rest
  induction rest with
  | nil =>
    intro processed ct side tns gnum hct
    simp [detectVinylLoop]
  | cons seg rest ih =>
    intro processed ct side tns gnum hct
    by_cases hseg : DEFAULT_MIN_TRACK_LEN_MS ≤ seg
    · rw [detectVinylLoop_cons_emit seg rest processed ct side tns gnum hct
        hseg]
      simp only [List.map_cons, List.length_cons, List.range'_succ]
      exact congrArg _ (ih (processed ++ [seg]) (ct + seg) side (tns + 1)
        (gnum + 1) (by simp [hct]))
    · rw [detectVinylLoop_cons_skip seg rest processed ct side tns gnum hseg]
      exact ih (processed ++ [seg]) (ct + seg) side tns gnum (by simp [hct])

/-- Under the loop invariant, every emitted track carries the side the loop
was entered with: the side-change branch is dead. -/
theorem detectVinylLoop_side :
    ∀ (rest processed : List Nat) (current_time : Nat) (current_side : String)
      (tns gnum : Nat), current_time = processed.sum →
      ∀ t ∈ detectVinylLoop rest processed current_time current_side tns gnum,
        t.side = current_side := by
  intro rest
  induction rest with
  | nil =>
    intro processed ct side tns gnum hct t ht
    simp [detectVinylLoop] at ht
  | cons seg rest ih =>
    intro processed ct side tns gnum hct t ht
    by_cases hseg : DEFAULT_MIN_TRACK_LEN_MS ≤ seg
    · rw [detectVinylLoop_cons_emit seg rest processed ct side tns gnum hct
        hseg] at ht
      rcases List.mem_cons.1 ht with h | h
      · rw [h]
      · exact ih (processed ++ [seg]) (ct + seg) side (tns + 1) (gnum + 1)
          (by simp [hct]) t h
    · rw [detectVinylLoop_cons_skip seg rest processed ct side tns gnum
        hseg] at ht
      exact ih (processed ++ [seg]) (ct + seg) side tns gnum (by simp [hct])
        t ht

/-- Under the loop invariant, every emitted track originates from a surviving
segment at some index `k`, with cursor-position timestamps. -/
theorem detectVinylLoop_mem :
    ∀ (rest processed : List Nat) (current_time : Nat) (current_side : String)
      (tns gnum : Nat), current_time = processed.sum →
      ∀ t ∈ detectVinylLoop rest processed current_time current_side tns gnum,
        ∃ k, ∃ hk : k < rest.length,
          DEFAULT_MIN_TRACK_LEN_MS ≤ rest.get ⟨k, hk⟩ ∧
          t.duration_ms = rest.get ⟨k, hk⟩ ∧
          t.start_time =
            ((current_time + (rest.take k).sum : Nat) : ℚ) / 1000 ∧
          t.end_time =
            ((current_time + (rest.take k).sum + rest.get ⟨k, hk⟩ : Nat) : ℚ) /
              1000 := by
  intro rest
  induction rest with
  | nil =>
    intro processed ct side tns gnum hct t ht
    simp [detectVinylLoop] at ht
  | cons seg rest ih =>
    intro processed ct side tns gnum hct t ht
    by_cases hseg : DEFAULT_MIN_TRACK_LEN_MS ≤ seg
    · rw [detectVinylLoop_cons_emit seg rest processed ct side tns gnum hct
        hseg] at ht
      rcases List.mem_cons.1 ht with h | h
      · subst h
        exact ⟨0, Nat.succ_pos _, hseg, rfl, by simp, by simp⟩
      · rcases ih (processed ++ [seg]) (ct + seg) side (tns + 1) (gnum + 1)
          (by simp [hct]) t h with ⟨k, hk, hle, hdur, hstart, hend⟩
        refine ⟨k + 1, Nat.succ_lt_succ hk, hle, hdur, ?_, ?_⟩
        · rw [hstart]
          have e : ct + seg + (rest.take k).sum =
              ct + ((seg :: rest).take (k + 1)).sum := by
            simp only [List.take_succ_cons, List.sum_cons]
            omega
          rw [e]
        · rw [hend]
          have e : ct + seg + (rest.take k).sum + rest.get ⟨k, hk⟩ =
              ct + ((seg :: rest).take (k + 1)).sum +
                (seg :: rest).get ⟨k + 1, Nat.succ_lt_succ hk⟩ := by
            simp only [List.take_succ_cons, List.sum_cons, List.get_cons_succ]
            omega
          rw [e]
    · rw [detectVinylLoop_cons_skip seg rest processed ct side tns gnum
        hseg] at ht
      rcases ih (processed ++ [seg]) (ct + seg) side tns gnum (by simp [hct])
        t ht with ⟨k, hk, hle, hdur, hstart, hend⟩
      refine ⟨k + 1, Nat.succ_lt_succ hk, hle, hdur, ?_, ?_⟩
      · rw [hstart]
        have e : ct + seg + (rest.take k).sum =
            ct + ((seg :: rest).take (k + 1)).sum := by
          simp only [List.take_succ_cons, List.sum_cons]
          omega
        rw [e]
      · rw [hend]
        have e : ct + seg + (rest.take k).sum + rest.get ⟨k, hk⟩ =
            ct + ((seg :: rest).take (k + 1)).sum +
              (seg :: rest).get ⟨k + 1, Nat.succ_lt_succ hk⟩ := by
          simp only [List.take_succ_cons, List.sum_cons, List.get_cons_succ]
          omega
        rw [e]

/-! ## C1 — spec §8 side-break scenario -/

/-- C1, the code evaluated on the scenario's failing input: the run-encoded
180 s buffer (two 80 s bursts around a 12 s true-silence gap) segments into
two 81000 ms segments under both the hard-coded first-pass parameters of
`detect_vinyl_tracks` (`min_silence_len = 500`, `keep_silence = 500`) and the
claim's parameters (`min_silence_len = 2000`, `keep_silence = 500`); the
classifier then emits 2 tracks numbered 1 and 2 — but both on side "A",
because `gap_before` (line 179) is identically zero, so the 12 s gap never
triggers the side change the claim (and the code's own comments) describe. -/
theorem c1_side_break_dead :
    (segmentRuns scenarioRuns 500 DEFAULT_KEEP_SILENCE_MS).map
        (fun p => p.2 - p.1) = [81000, 81000] ∧
    (segmentRuns scenarioRuns DEFAULT_MIN_SILENCE_LEN_MS
        DEFAULT_KEEP_SILENCE_MS).map (fun p => p.2 - p.1) = [81000, 81000] ∧
    (detect_vinyl_tracks_segments [81000, 81000]).map
        (fun t => (t.number, t.side)) = [(1, "A"), (2, "A")] := by
  refine ⟨by decide, by decide, by decide⟩

/-! ## C2 — track numbering -/

/-- C2 counterexample: in `detect_tracks`, a discarded first segment shifts
the numbering — on segments `[5000, 20000]` with `min_track_len = 10000` the
single emitted track has number 2, not 1, so the emitted numbers are not
contiguous starting at 1. -/
theorem c2_counterexample :
    (detect_tracks_segments [5000, 20000] 10000).map Track.number = [2] := by
  decide

/-- C2 (amended): in `detect_vinyl_tracks` the emitted numbers are exactly
`1, 2, …` (the k-th emitted track has number k); in `detect_tracks` each
emitted track's number is one plus the index of its segment in the full
pre-filter segment list, so numbers are contiguous from 1 only when no
discarded segment precedes a surviving one. -/
theorem c2_track_numbering :
    (∀ segments : List Nat,
      (detect_vinyl_tracks_segments segments).map Track.number =
        List.range' 1 (detect_vinyl_tracks_segments segments).length) ∧
    (∀ (segments : List Nat) (min_track_len : Nat) (t : Track),
      t ∈ detect_tracks_segments segments min_track_len →
      ∃ k, ∃ hk : k < segments.length,
        min_track_len ≤ segments.get ⟨k, hk⟩ ∧ t.number = k + 1) := by
  constructor
  · intro segments
    unfold detect_vinyl_tracks_segments
    split_ifs with h
    · simp
    · exact detectVinylLoop_numbers segments [] 0 "A" 1 1 rfl
  · intro segments min_track_len t ht
    unfold detect_tracks_segments at ht
    split_ifs at ht with h
    · simp at ht
    · rcases detectTracksLoop_mem min_track_len segments 0 0 t ht with
        ⟨k, hk, hle, hnum, _⟩
      exact ⟨k, hk, hle, by omega⟩

/-- Witness for C2 at concrete inputs. -/
theorem c2_witness :
    (detect_vinyl_tracks_segments [81000, 81000]).map Track.number =
      List.range' 1 (detect_vinyl_tracks_segments [81000, 81000]).length ∧
    ∃ k, ∃ hk : k < ([5000, 20000] : List Nat).length,
      10000 ≤ ([5000, 20000] : List Nat).get ⟨k, hk⟩ ∧
      ({ number := 2, duration_ms := 20000,
         start_time := ((0 + 5000 : Nat) : ℚ) / 1000,
         end_time := ((0 + 5000 + 20000 : Nat) : ℚ) / 1000,
         side := "A" } : Track).number = k + 1 := by
  have hlist : detect_tracks_segments [5000, 20000] 10000 =
      [{ number := 2, duration_ms := 20000,
         start_time := ((0 + 5000 : Nat) : ℚ) / 1000,
         end_time := ((0 + 5000 + 20000 : Nat) : ℚ) / 1000,
         side := "A" }] := rfl
  exact ⟨c2_track_numbering.1 [81000, 81000],
    c2_track_numbering.2 [5000, 20000] 10000 _
      (hlist ▸ List.mem_singleton_self _)⟩

/-! ## C3 — empty-after-filtering outcome -/

/-- C3 counterexample: a non-empty segment list that becomes empty after the
minimum-length filter does NOT fail with a `ProcessingError` — it returns a
valid empty track list, indistinguishable from the zero-segments outcome. -/
theorem c3_counterexample :
    detect_tracks "rip.wav" 180000 [5000] 10000 = Except.ok [] := rfl

/-- C3 (amended): track classification returns an empty list, not an error,
both when the segment list is empty and when it is non-empty but every
segment is discarded by the `min_track_len` filter; the two outcomes are not
distinguishable by the caller. -/
theorem c3_filtered_empty (path : String) (audio_len_ms : Nat)
    (segments : List Nat) (min_track_len : Nat)
    (hlen : audio_len_ms ≠ 0)
    (hshort : ∀ s ∈ segments, s < min_track_len) :
    detect_tracks path audio_len_ms segments min_track_len = .ok [] := by
  unfold detect_tracks
  rw [if_neg hlen]
  unfold detect_tracks_segments
  split_ifs with h
  · rfl
  · rw [detectTracksLoop_all_short min_track_len segments 0 0 hshort]

/-- Witness for C3 at a concrete all-short segment list. -/
theorem c3_witness :
    detect_tracks "rip.wav" 172000 [5000, 2000] 10000 = .ok [] :=
  c3_filtered_empty "rip.wav" 172000 [5000, 2000] 10000 (by decide)
    (by decide)

/-! ## C4 — cumulative-time cursor -/

/-- C4: a segment shorter than `min_track_len` produces no Track but still
advances the cursor: every emitted Track's `start_time` is the sum of the
lengths of all earlier segments (surviving or discarded) divided by 1000,
and its `end_time` is that sum plus its own length, divided by 1000 — in
both `detect_tracks` and `detect_vinyl_tracks`. -/
theorem c4_cursor_times :
    (∀ (segments : List Nat) (min_track_len : Nat) (t : Track),
      t ∈ detect_tracks_segments segments min_track_len →
      ∃ k, ∃ hk : k < segments.length,
        min_track_len ≤ segments.get ⟨k, hk⟩ ∧
        t.duration_ms = segments.get ⟨k, hk⟩ ∧
        t.start_time = (((segments.take k).sum : Nat) : ℚ) / 1000 ∧
        t.end_time =
          (((segments.take k).sum + segments.get ⟨k, hk⟩ : Nat) : ℚ) / 1000) ∧
    (∀ (segments : List Nat) (t : Track),
      t ∈ detect_vinyl_tracks_segments segments →
      ∃ k, ∃ hk : k < segments.length,
        DEFAULT_MIN_TRACK_LEN_MS ≤ segments.get ⟨k, hk⟩ ∧
        t.duration_ms = segments.get ⟨k, hk⟩ ∧
        t.start_time = (((segments.take k).sum : Nat) : ℚ) / 1000 ∧
        t.end_time =
          (((segments.take k).sum + segments.get ⟨k, hk⟩ : Nat) : ℚ) /
            1000) := by
  constructor
  · intro segments min_track_len t ht
    unfold detect_tracks_segments at ht
    split_ifs at ht with h
    · simp at ht
    · rcases detectTracksLoop_mem min_track_len segments 0 0 t ht with
        ⟨k, hk, hle, _, hdur, hstart, hend, _⟩
      refine ⟨k, hk, hle, hdur, ?_, ?_⟩
      · rw [hstart]; push_cast; ring
      · rw [hend]; push_cast; ring
  · intro segments t ht
    unfold detect_vinyl_tracks_segments at ht
    split_ifs at ht with h
    · simp at ht
    · rcases detectVinylLoop_mem segments [] 0 "A" 1 1 rfl t ht with
        ⟨k, hk, hle, hdur, hstart, hend⟩
      refine ⟨k, hk, hle, hdur, ?_, ?_⟩
      · rw [hstart]; push_cast; ring
      · rw [hend]; push_cast; ring

/-- Witness for C4 at concrete inputs (a discarded 5000 ms segment before a
surviving 20000 ms one; and the C1 scenario's two segments). -/
theorem c4_witness :
    (∃ k, ∃ hk : k < ([5000, 20000] : List Nat).length,
      10000 ≤ ([5000, 20000] : List Nat).get ⟨k, hk⟩ ∧
      ({ number := 2, duration_ms := 20000,
         start_time := ((0 + 5000 : Nat) : ℚ) / 1000,
         end_time := ((0 + 5000 + 20000 : Nat) : ℚ) / 1000,
         side := "A" } : Track).duration_ms =
        ([5000, 20000] : List Nat).get ⟨k, hk⟩ ∧
      ({ number := 2, duration_ms := 20000,
         start_time := ((0 + 5000 : Nat) : ℚ) / 1000,
         end_time := ((0 + 5000 + 20000 : Nat) : ℚ) / 1000,
         side := "A" } : Track).start_time =
        (((([5000, 20000] : List Nat).take k).sum : Nat) : ℚ) / 1000 ∧
      ({ number := 2, duration_ms := 20000,
         start_time := ((0 + 5000 : Nat) : ℚ) / 1000,
         end_time := ((0 + 5000 + 20000 : Nat) : ℚ) / 1000,
         side := "A" } : Track).end_time =
        (((([5000, 20000] : List Nat).take k).sum +
          ([5000, 20000] : List Nat).get ⟨k, hk⟩ : Nat) : ℚ) / 1000) ∧
    (∃ k, ∃ hk : k < ([81000, 81000] : List Nat).length,
      DEFAULT_MIN_TRACK_LEN_MS ≤ ([81000, 81000] : List Nat).get ⟨k, hk⟩ ∧
      ({ number := 1, duration_ms := 81000,
         start_time := ((0 : Nat) : ℚ) / 1000,
         end_time := ((0 + 81000 : Nat) : ℚ) / 1000,
         side := "A" } : Track).duration_ms =
        ([81000, 81000] : List Nat).get ⟨k, hk⟩ ∧
      ({ number := 1, duration_ms := 81000,
         start_time := ((0 : Nat) : ℚ) / 1000,
         end_time := ((0 + 81000 : Nat) : ℚ) / 1000,
         side := "A" } : Track).start_time =
        (((([81000, 81000] : List Nat).take k).sum : Nat) : ℚ) / 1000 ∧
      ({ number := 1, duration_ms := 81000,
         start_time := ((0 : Nat) : ℚ) / 1000,
         end_time := ((0 + 81000 : Nat) : ℚ) / 1000,
         side := "A" } : Track).end_time =
        (((([81000, 81000] : List Nat).take k).sum +
          ([81000, 81000] : List Nat).get ⟨k, hk⟩ : Nat) : ℚ) / 1000) := by
  have hlist1 : detect_tracks_segments [5000, 20000] 10000 =
      [{ number := 2, duration_ms := 20000,
         start_time := ((0 + 5000 : Nat) : ℚ) / 1000,
         end_time := ((0 + 5000 + 20000 : Nat) : ℚ) / 1000,
         side := "A" }] := rfl
  have hlist2 : detect_vinyl_tracks_segments [81000, 81000] =
      [{ number := 1, duration_ms := 81000,
         start_time := ((0 : Nat) : ℚ) / 1000,
         end_time := ((0 + 81000 : Nat) : ℚ) / 1000,
         side := "A" },
       { number := 2, duration_ms := 81000,
         start_time := ((0 + 81000 : Nat) : ℚ) / 1000,
         end_time := ((0 + 81000 + 81000 : Nat) : ℚ) / 1000,
         side := "A" }] := rfl
  exact ⟨c4_cursor_times.1 [5000, 20000] 10000 _
      (hlist1 ▸ List.mem_singleton_self _),
    c4_cursor_times.2 [81000, 81000] _
      (hlist2 ▸ List.mem_cons_self _ _)⟩

/-! ## C8 — side monotonicity -/

/-- A list of side letters that are all `"A"` is `sideOrd`-non-decreasing. -/
theorem sideChain_const :
    ∀ l : List String, (∀ x ∈ l, x = "A") →
      List.Chain' (fun a b => sideOrd a ≤ sideOrd b) l := by
  intro l
  induction l with
  | nil => intro _; exact List.chain'_nil
  | cons a t ih =>
    intro h
    cases t with
    | nil => exact List.chain'_singleton a
    | cons b t' =>
      rw [List.chain'_cons]
      refine ⟨?_, ih (fun x hx => h x (List.mem_cons_of_mem a hx))⟩
      rw [h a (by simp), h b (by simp)]

/-- C8: for every input, the side letters of the emitted Track sequence are
monotonically non-decreasing along the fixed order A, B, C, D, and every
emitted side is one of {A, B, C, D}.  (In fact, since `gap_before` is
identically zero, every emitted side is "A".) -/
theorem c8_sides_monotone (segments : List Nat) :
    List.Chain' (fun a b => sideOrd a ≤ sideOrd b)
      ((detect_vinyl_tracks_segments segments).map Track.side) ∧
    ∀ t ∈ detect_vinyl_tracks_segments segments,
      t.side ∈ (["A", "B", "C", "D"] : List String) := by
  have hA : ∀ t ∈ detect_vinyl_tracks_segments segments, t.side = "A" := by
    intro t ht
    unfold detect_vinyl_tracks_segments at ht
    split_ifs at ht with h
    · simp at ht
    · exact detectVinylLoop_side segments [] 0 "A" 1 1 rfl t ht
  constructor
  · apply sideChain_const
    intro x hx
    rcases List.mem_map.1 hx with ⟨t, ht, rfl⟩
    exact hA t ht
  · intro t ht
    rw [hA t ht]
    simp

/-- Witness for C8 at a concrete segment list. -/
theorem c8_witness :
    List.Chain' (fun a b => sideOrd a ≤ sideOrd b)
      ((detect_vinyl_tracks_segments [81000, 81000]).map Track.side) ∧
    ({ number := 1, duration_ms := 81000,
       start_time := ((0 : Nat) : ℚ) / 1000,
       end_time := ((0 + 81000 : Nat) : ℚ) / 1000,
       side := "A" } : Track).side ∈ (["A", "B", "C", "D"] : List String) := by
  have hlist : detect_vinyl_tracks_segments [81000, 81000] =
      [{ number := 1, duration_ms := 81000,
         start_time := ((0 : Nat) : ℚ) / 1000,
         end_time := ((0 + 81000 : Nat) : ℚ) / 1000,
         side := "A" },
       { number := 2, duration_ms := 81000,
         start_time := ((0 + 81000 : Nat) : ℚ) / 1000,
         end_time := ((0 + 81000 + 81000 : Nat) : ℚ) / 1000,
         side := "A" }] := rfl
  exact ⟨(c8_sides_monotone [81000, 81000]).1,
    (c8_sides_monotone [81000, 81000]).2 _ (hlist ▸ List.mem_cons_self _ _)⟩

/-! ## C9 — side clamped at "D" -/

/-- C9: when the current side is already "D" and the side-break condition
holds (`gap_before > 10000` and at least one track already emitted), the
advance chain of lines 184–189 has no branch for "D", so the side silently
stays "D": the surviving segment is emitted as a track with side "D", with
no wraparound and no error. -/
theorem c9_side_d_clamp (seg : Nat) (rest processed : List Nat)
    (current_time tns gnum : Nat)
    (hseg : DEFAULT_MIN_TRACK_LEN_MS ≤ seg)
    (hproc : processed ≠ [])
    (hgap : 10000 < (current_time : ℤ) - (processed.sum : ℤ))
    (hgnum : 1 < gnum) :
    ∃ remaining,
      detectVinylLoop (seg :: rest) processed current_time "D" tns gnum =
        { number := gnum
          duration_ms := seg
          start_time := (current_time : ℚ) / 1000
          end_time := ((current_time + seg : Nat) : ℚ) / 1000
          side := "D" } :: remaining := by
  have hbreak : (decide (10000 <
      (if processed ≠ [] then
        (current_time : ℤ) - (processed.sum : ℤ) else 0)) &&
      decide (1 < gnum)) = true := by
    rw [if_pos hproc]
    simp only [Bool.and_eq_true, decide_eq_true_eq]
    exact ⟨hgap, hgnum⟩
  refine ⟨detectVinylLoop rest (processed ++ [seg]) (current_time + seg) "D"
    2 (gnum + 1), ?_⟩
  rw [detectVinylLoop, if_pos hseg]
  simp only [hbreak, if_true]
  have hD : advanceSide "D" = "D" := rfl
  simp [hD]

/-- Witness for C9 at a concrete state: side already "D", a 15000 ms gap,
second track. -/
theorem c9_witness :
    ∃ remaining,
      detectVinylLoop [20000] [5000] 20000 "D" 1 2 =
        { number := 2
          duration_ms := 20000
          start_time := (20000 : ℚ) / 1000
          end_time := ((20000 + 20000 : Nat) : ℚ) / 1000
          side := "D" } :: remaining :=
  c9_side_d_clamp 20000 [] [5000] 20000 1 2 (by decide) (by decide)
    (by decide) (by decide)

end VinylRipper
